import Mathlib

/-!
# Verification development for the Snake game simulation engine

Shallow embedding of the `SnakeGame` class from
`src/making_ai_from_scratch/reinforcement_learning/snake_game/gui.py`.

Modelling conventions:
* A grid cell (`Pos`) is a pair of integers, as in the Python code (coordinates
  may temporarily leave `[0, size)` before the wrap / bounds check).
* Python `set` objects (`snake_set`, `apples`, `free_tiles`) are modelled as
  duplicate-free lists: `set.add` is `addSet` (insert if absent), `set.discard`
  is `List.erase` (which, on a duplicate-free list, removes the element).
* The `deque` `snake` is a list with the head at the front: `appendleft` is
  `cons`, `pop` is `dropLast`, `snake[-1]` is `getLastD`, `append` during
  spawning is appending at the back.
* `random.choice(tuple(self.free_tiles))` is modelled by an explicit choice
  function `c : List Pos → Pos`; `GoodChoose c` says `c` always returns a
  member of a nonempty list, which is everything the engine relies on.
  The `while` loop of `replenish_apples` is run with fuel `free_tiles.length`:
  each iteration of the Python loop removes one chosen free tile, so this
  fuel makes the model agree with the Python loop for every good choice
  function.
* The `grid` matrix maintained by `reset`/`spawn_snake` is write-only render
  state (never read by the engine), so it is not modelled.  `running` is kept
  for completeness; the engine itself never reads it.
-/

set_option maxRecDepth 100000

/-- A grid cell, as the Python `tuple[int, int]`. -/
abbrev Pos : Type := Int × Int

/-- `SnakeConfig` dataclass (gui.py lines 22-30).  `cell_size`, `speed_ms` and
`show_grid` are presentation-only but kept for fidelity. -/
structure SnakeConfig where
  grid_size : Nat := 20
  cell_size : Nat := 28
  speed_ms : Nat := 100
  apples : Nat := 3
  initial_length : Nat := 3
  wrap_walls : Bool := false
  show_grid : Bool := true
deriving Repr, DecidableEq

/-- The mutable state of a `SnakeGame` instance (gui.py lines 38-52). -/
structure GameState where
  snake : List Pos
  snake_set : List Pos
  apples : List Pos
  free_tiles : List Pos
  direction : String
  pending_direction : String
  running : Bool
  alive : Bool
  score : Nat
deriving Repr, DecidableEq

/-- Python `set.add`: insert the element unless it is already present. -/
def addSet (p : Pos) (s : List Pos) : List Pos :=
  if p ∈ s then s else p :: s

/-- The set comprehension `{(x, y) for x in range(size) for y in range(size)}`
(gui.py line 44). -/
def allTiles (size : Nat) : List Pos :=
  (List.range size).flatMap (fun x => (List.range size).map (fun y => ((x : Int), (y : Int))))

/-- The list of cells `SnakeGame.spawn_snake` places the snake on
(gui.py lines 54-66).  Python's `min`/`max` over the (nonempty, for positive
length) position list are modelled with `min?`/`max?` and a default that is
never used for positive length; Python `//` on possibly negative operands is
floor division, i.e. `Int.fdiv`. -/
def spawnPositions (size len : Nat) : List Pos :=
  let center_y : Int := ((size / 2 : Nat) : Int)
  let center_x : Int := ((size / 2 : Nat) : Int)
  let naive : List Pos := (List.range len).map (fun (i : Nat) => (center_x - (i : Int), center_y))
  let min_x : Int := ((naive.map Prod.fst).min?).getD 0
  let max_x : Int := ((naive.map Prod.fst).max?).getD 0
  if min_x < 0 ∨ (size : Int) ≤ max_x then
    let tail_x : Int := Int.fdiv ((size : Int) - (len : Int)) 2
    let head_x : Int := tail_x + (len : Int) - 1
    (List.range len).map (fun (i : Nat) => (head_x - (i : Int), center_y))
  else naive

/-- The loop body of `SnakeGame.spawn_snake` (gui.py lines 68-72): append the
cell to the snake deque, add it to `snake_set`, remove it from `free_tiles`.
The `grid[y][x] = 1` write is render-only state and not modelled. -/
def spawnStep (st : GameState) (p : Pos) : GameState :=
  { st with
    snake := st.snake ++ [p]
    snake_set := addSet p st.snake_set
    free_tiles := st.free_tiles.erase p }

/-- `SnakeGame.spawn_snake` (gui.py lines 54-72), acting on a state. -/
def spawn_snake (cfg : SnakeConfig) (len : Nat) (s : GameState) : GameState :=
  (spawnPositions cfg.grid_size len).foldl spawnStep s

/-- `SnakeGame._next_head` (gui.py lines 74-82): any direction other than
`"up"`, `"down"`, `"left"` falls through to the `"right"` case, exactly as in
the Python code. -/
def next_head (s : GameState) : Pos :=
  let hd := s.snake.headD (0, 0)
  if s.direction = "up" then (hd.1, hd.2 - 1)
  else if s.direction = "down" then (hd.1, hd.2 + 1)
  else if s.direction = "left" then (hd.1 - 1, hd.2)
  else (hd.1 + 1, hd.2)

/-- `SnakeGame._in_bounds` (gui.py lines 84-86). -/
def in_bounds (cfg : SnakeConfig) (x y : Int) : Prop :=
  0 ≤ x ∧ x < (cfg.grid_size : Int) ∧ 0 ≤ y ∧ y < (cfg.grid_size : Int)

instance (cfg : SnakeConfig) (x y : Int) : Decidable (in_bounds cfg x y) := by
  unfold in_bounds; infer_instance

/-- The `while` loop of `SnakeGame.replenish_apples` (gui.py lines 128-131),
with explicit fuel (see the module docstring). -/
def replenishLoop (c : List Pos → Pos) (target : Nat) :
    Nat → List Pos → List Pos → List Pos × List Pos
  | 0, apples, free => (apples, free)
  | fuel + 1, apples, free =>
    if apples.length < target ∧ free ≠ [] then
      let pos := c free
      replenishLoop c target fuel (addSet pos apples) (free.erase pos)
    else (apples, free)

/-- `SnakeGame.replenish_apples` (gui.py lines 126-131). -/
def replenish_apples (c : List Pos → Pos) (cfg : SnakeConfig) (s : GameState) : GameState :=
  let target := min cfg.apples s.free_tiles.length
  let res := replenishLoop c target s.free_tiles.length s.apples s.free_tiles
  { s with apples := res.1, free_tiles := res.2 }

/-- The part of `SnakeGame.move` from line 103 on (after the wall handling):
self-collision check, head push, grow-or-pop, apple replenishment
(gui.py lines 103-124).  `nh` is the candidate head, already wrapped if wrap
mode is on.  The Python local `growing = new_head in self.apples` is inlined
as the proposition `nh ∈ s.apples` (the apple set is not modified between the
two uses, so the inlining is exact). -/
def moveCore (c : List Pos → Pos) (cfg : SnakeConfig) (s : GameState) (nh : Pos) :
    Bool × GameState :=
  if nh ∈ s.snake_set ∧ ¬(¬(nh ∈ s.apples) ∧ nh = s.snake.getLastD (0, 0)) then
    (false, { s with alive := false })
  else
    let s2 := { s with
      snake := nh :: s.snake
      snake_set := addSet nh s.snake_set
      free_tiles := s.free_tiles.erase nh }
    let s3 :=
      if nh ∈ s.apples then
        { s2 with apples := s2.apples.erase nh, score := s2.score + 1 }
      else
        let old_tail := s2.snake.getLastD (0, 0)
        { s2 with
          snake := s2.snake.dropLast
          snake_set := s2.snake_set.erase old_tail
          free_tiles := addSet old_tail s2.free_tiles }
    (true, replenish_apples c cfg s3)

/-- `SnakeGame.move` (gui.py lines 88-124).  Returns the Python return value
paired with the updated state. -/
def move (c : List Pos → Pos) (cfg : SnakeConfig) (s : GameState) : Bool × GameState :=
  if s.alive = false then (false, s)
  else
    let s1 := { s with direction := s.pending_direction }
    let nh := next_head s1
    if cfg.wrap_walls then
      moveCore c cfg s1 (nh.1 % (cfg.grid_size : Int), nh.2 % (cfg.grid_size : Int))
    else if in_bounds cfg nh.1 nh.2 then
      moveCore c cfg s1 nh
    else
      (false, { s1 with alive := false })

/-- The candidate head cell that `move` tests for collisions: the head offset
one cell in the committed (pending) direction, wrapped modulo the grid size
when wrap mode is on (gui.py lines 92-103). -/
def effectiveHead (cfg : SnakeConfig) (s : GameState) : Pos :=
  let nh := next_head { s with direction := s.pending_direction }
  if cfg.wrap_walls then (nh.1 % (cfg.grid_size : Int), nh.2 % (cfg.grid_size : Int)) else nh

/-- The `opposites` lookup table of `SnakeGame.queue_direction`
(gui.py lines 134-139), as a function on the four valid keys. -/
def opposites (d : String) : String :=
  if d = "up" then "down"
  else if d = "down" then "up"
  else if d = "left" then "right"
  else if d = "right" then "left"
  else ""

/-- `new_direction in opposites` (gui.py line 140). -/
def validDir (d : String) : Prop :=
  d = "up" ∨ d = "down" ∨ d = "left" ∨ d = "right"

instance (d : String) : Decidable (validDir d) := by
  unfold validDir; infer_instance

/-- `SnakeGame.queue_direction` (gui.py lines 133-144). -/
def queue_direction (d : String) (s : GameState) : GameState :=
  if ¬ validDir d then s
  else if 1 < s.snake.length ∧ opposites d = s.direction then s
  else { s with pending_direction := d }

/-- `SnakeGame.reset` (gui.py lines 38-52); the `grid` matrix is render-only
and not modelled. -/
def resetState (c : List Pos → Pos) (cfg : SnakeConfig) : GameState :=
  let s : GameState := {
    snake := []
    snake_set := []
    apples := []
    free_tiles := allTiles cfg.grid_size
    direction := "right"
    pending_direction := "right"
    running := false
    alive := true
    score := 0 }
  replenish_apples c cfg (spawn_snake cfg cfg.initial_length s)

/-- `c` models `random.choice`: on a nonempty list it returns a member. -/
def GoodChoose (c : List Pos → Pos) : Prop :=
  ∀ l : List Pos, l ≠ [] → c l ∈ l

/-- States reachable from `reset()` by `move()` and `queue_direction()` calls,
for a fixed configuration and a fixed model of the random choice. -/
inductive Reachable (c : List Pos → Pos) (cfg : SnakeConfig) : GameState → Prop where
  | reset : Reachable c cfg (resetState c cfg)
  | step_move : ∀ s, Reachable c cfg s → Reachable c cfg (move c cfg s).2
  | step_queue : ∀ s (d : String), Reachable c cfg s → Reachable c cfg (queue_direction d s)

/-- A driver session: starting from `reset()`, queue direction `d` and then
call `move()` once, for each `d` in the list.  Every state this produces is
reachable. -/
def runSeq (c : List Pos → Pos) (cfg : SnakeConfig) (ds : List String) : GameState :=
  ds.foldl (fun s d => (move c cfg (queue_direction d s)).2) (resetState c cfg)

/-! ## Basic lemmas about the set model -/

theorem mem_addSet {p q : Pos} {s : List Pos} : p ∈ addSet q s ↔ p = q ∨ p ∈ s := by
  unfold addSet
  split
  · constructor
    · exact fun h => Or.inr h
    · rintro (rfl | h) <;> assumption
  · simp [List.mem_cons]

theorem addSet_nodup {p : Pos} {s : List Pos} (h : s.Nodup) : (addSet p s).Nodup := by
  unfold addSet
  split
  · exact h
  · exact List.nodup_cons.mpr ⟨by assumption, h⟩

theorem addSet_length_of_not_mem {p : Pos} {s : List Pos} (h : p ∉ s) :
    (addSet p s).length = s.length + 1 := by
  unfold addSet
  rw [if_neg h]
  rfl

theorem getLastD_congr {α : Type} (l : List α) (h : l ≠ []) (a b : α) :
    l.getLastD a = l.getLastD b := by
  cases l with
  | nil => exact absurd rfl h
  | cons x xs => rw [List.getLastD_cons, List.getLastD_cons]

/-! ## Lemmas about `replenish_apples` -/

theorem replenish_snake (c : List Pos → Pos) (cfg : SnakeConfig) (s : GameState) :
    (replenish_apples c cfg s).snake = s.snake := rfl

theorem replenish_snake_set (c : List Pos → Pos) (cfg : SnakeConfig) (s : GameState) :
    (replenish_apples c cfg s).snake_set = s.snake_set := rfl

theorem replenish_score (c : List Pos → Pos) (cfg : SnakeConfig) (s : GameState) :
    (replenish_apples c cfg s).score = s.score := rfl

theorem replenish_direction (c : List Pos → Pos) (cfg : SnakeConfig) (s : GameState) :
    (replenish_apples c cfg s).direction = s.direction := rfl

theorem replenish_pending (c : List Pos → Pos) (cfg : SnakeConfig) (s : GameState) :
    (replenish_apples c cfg s).pending_direction = s.pending_direction := rfl

theorem replenish_alive (c : List Pos → Pos) (cfg : SnakeConfig) (s : GameState) :
    (replenish_apples c cfg s).alive = s.alive := rfl

/-- Tiles in the free set after the replenish loop were free before it. -/
theorem replenishLoop_free_subset (c : List Pos → Pos) (target : Nat) :
    ∀ (fuel : Nat) (apples free : List Pos) (p : Pos),
      p ∈ (replenishLoop c target fuel apples free).2 → p ∈ free := by
  intro fuel
  induction fuel with
  | zero => intro apples free p h; exact h
  | succ n ih =>
    intro apples free p h
    rw [replenishLoop] at h
    split at h
    · exact List.mem_of_mem_erase (ih _ _ _ h)
    · exact h

/-- The replenish loop moves tiles between the free set and the apple set:
everything in either set before is in one of them after. -/
theorem replenishLoop_mem_union (c : List Pos → Pos) (target : Nat) :
    ∀ (fuel : Nat) (apples free : List Pos) (p : Pos),
      p ∈ free ∨ p ∈ apples →
      p ∈ (replenishLoop c target fuel apples free).2 ∨
        p ∈ (replenishLoop c target fuel apples free).1 := by
  intro fuel
  induction fuel with
  | zero => intro apples free p h; exact h.imp id id
  | succ n ih =>
    intro apples free p h
    rw [replenishLoop]
    split
    · apply ih
      rcases h with hf | ha
      · by_cases hpc : p = c free
        · exact Or.inr (mem_addSet.mpr (Or.inl hpc))
        · exact Or.inl ((List.mem_erase_of_ne hpc).mpr hf)
      · exact Or.inr (mem_addSet.mpr (Or.inr ha))
    · exact h.imp id id

/-- With a faithful model of `random.choice`, the replenish loop only adds
apples drawn from the free-tile set. -/
theorem replenishLoop_apples_from (c : List Pos → Pos) (hgood : GoodChoose c) (target : Nat) :
    ∀ (fuel : Nat) (apples free : List Pos) (p : Pos),
      p ∉ apples → p ∉ free →
      p ∉ (replenishLoop c target fuel apples free).1 := by
  intro fuel
  induction fuel with
  | zero => intro apples free p ha _ h; exact ha h
  | succ n ih =>
    intro apples free p ha hf h
    rw [replenishLoop] at h
    split at h
    · rename_i hcond
      refine ih _ _ _ ?_ ?_ h
      · intro hmem
        rcases mem_addSet.mp hmem with rfl | hmem
        · exact hf (hgood free hcond.2)
        · exact ha hmem
      · exact fun hmem => hf (List.mem_of_mem_erase hmem)
    · exact ha h

/-- The apple set and the free-tile set stay disjoint across the replenish
loop (no good-choice assumption needed). -/
theorem replenishLoop_disjoint (c : List Pos → Pos) (target : Nat) :
    ∀ (fuel : Nat) (apples free : List Pos), free.Nodup →
      (∀ p ∈ apples, p ∉ free) →
      ∀ p, p ∈ (replenishLoop c target fuel apples free).1 →
        p ∉ (replenishLoop c target fuel apples free).2 := by
  intro fuel
  induction fuel with
  | zero => intro apples free _ hdisj p hp; exact hdisj p hp
  | succ n ih =>
    intro apples free hnf hdisj p
    rw [replenishLoop]
    split
    · refine ih _ _ (hnf.erase _) ?_ p
      intro q hq
      rcases mem_addSet.mp hq with rfl | hq
      · exact fun hmem => ((hnf.mem_erase_iff).mp hmem).1 rfl
      · exact fun hmem => hdisj q hq (List.mem_of_mem_erase hmem)
    · exact hdisj p

/-- Size of the apple set produced by the replenish loop, when the choice
function models `random.choice` and the sets are well formed. -/
theorem replenishLoop_length (c : List Pos → Pos) (hgood : GoodChoose c) (target : Nat) :
    ∀ (fuel : Nat) (apples free : List Pos), free.length = fuel →
      apples.Nodup → free.Nodup → (∀ p ∈ apples, p ∉ free) →
      (replenishLoop c target fuel apples free).1.length
        = max apples.length (min target (apples.length + free.length)) := by
  intro fuel
  induction fuel with
  | zero =>
    intro apples free hlen _ _ _
    rw [replenishLoop]
    dsimp only
    simp only [List.length_eq_zero] at hlen
    subst hlen
    simp only [List.length_nil]
    omega
  | succ n ih =>
    intro apples free hlen hna hnf hdisj
    rw [replenishLoop]
    split
    · rename_i hcond
      have hpos : c free ∈ free := hgood free hcond.2
      have hpa : c free ∉ apples := fun h => hdisj _ h hpos
      have h1 : addSet (c free) apples = c free :: apples := by
        unfold addSet; rw [if_neg hpa]
      have hel : (free.erase (c free)).length = n := by
        rw [List.length_erase_of_mem hpos, hlen]
        omega
      have ihres := ih (addSet (c free) apples) (free.erase (c free)) hel
        (by rw [h1]; exact List.nodup_cons.mpr ⟨hpa, hna⟩)
        (hnf.erase _)
        (by
          intro q hq
          rw [h1] at hq
          rcases List.mem_cons.mp hq with rfl | hq
          · exact fun hmem => ((hnf.mem_erase_iff).mp hmem).1 rfl
          · exact fun hmem => hdisj q hq (List.mem_of_mem_erase hmem))
      rw [ihres, h1]
      simp only [List.length_cons, hel]
      have hlt : apples.length < target := hcond.1
      omega
    · rename_i hcond
      push_neg at hcond
      dsimp only
      by_cases hfe : free = []
      · subst hfe
        simp only [List.length_nil]
        omega
      · have hge : ¬ apples.length < target := fun h => hfe (hcond h)
        omega

/-! ## Lemmas about spawning and reset -/

theorem foldl_spawnStep_snake (ps : List Pos) :
    ∀ st : GameState, (ps.foldl spawnStep st).snake = st.snake ++ ps := by
  induction ps with
  | nil => intro st; simp
  | cons p ps ih =>
    intro st
    rw [List.foldl_cons, ih]
    simp [spawnStep]

theorem foldl_spawnStep_score (ps : List Pos) :
    ∀ st : GameState, (ps.foldl spawnStep st).score = st.score := by
  induction ps with
  | nil => intro st; rfl
  | cons p ps ih => intro st; rw [List.foldl_cons, ih]; rfl

theorem foldl_spawnStep_direction (ps : List Pos) :
    ∀ st : GameState, (ps.foldl spawnStep st).direction = st.direction := by
  induction ps with
  | nil => intro st; rfl
  | cons p ps ih => intro st; rw [List.foldl_cons, ih]; rfl

theorem foldl_spawnStep_pending (ps : List Pos) :
    ∀ st : GameState, (ps.foldl spawnStep st).pending_direction = st.pending_direction := by
  induction ps with
  | nil => intro st; rfl
  | cons p ps ih => intro st; rw [List.foldl_cons, ih]; rfl

theorem foldl_spawnStep_alive (ps : List Pos) :
    ∀ st : GameState, (ps.foldl spawnStep st).alive = st.alive := by
  induction ps with
  | nil => intro st; rfl
  | cons p ps ih => intro st; rw [List.foldl_cons, ih]; rfl

theorem spawnPositions_length (size len : Nat) : (spawnPositions size len).length = len := by
  simp only [spawnPositions]
  split <;> simp

theorem resetState_snake (c : List Pos → Pos) (cfg : SnakeConfig) :
    (resetState c cfg).snake = spawnPositions cfg.grid_size cfg.initial_length := by
  unfold resetState
  rw [replenish_snake]
  unfold spawn_snake
  rw [foldl_spawnStep_snake]
  rfl

theorem resetState_score (c : List Pos → Pos) (cfg : SnakeConfig) :
    (resetState c cfg).score = 0 := by
  unfold resetState
  rw [replenish_score]
  unfold spawn_snake
  rw [foldl_spawnStep_score]

theorem resetState_direction (c : List Pos → Pos) (cfg : SnakeConfig) :
    (resetState c cfg).direction = "right" := by
  unfold resetState
  rw [replenish_direction]
  unfold spawn_snake
  rw [foldl_spawnStep_direction]

theorem resetState_pending (c : List Pos → Pos) (cfg : SnakeConfig) :
    (resetState c cfg).pending_direction = "right" := by
  unfold resetState
  rw [replenish_pending]
  unfold spawn_snake
  rw [foldl_spawnStep_pending]

/-! ## Reachability plumbing -/

theorem foldl_step_reachable (c : List Pos → Pos) (cfg : SnakeConfig) (ds : List String) :
    ∀ s : GameState, Reachable c cfg s →
      Reachable c cfg (ds.foldl (fun s d => (move c cfg (queue_direction d s)).2) s) := by
  induction ds with
  | nil => intro s hs; exact hs
  | cons d ds ih =>
    intro s hs
    rw [List.foldl_cons]
    exact ih _ (Reachable.step_move _ (Reachable.step_queue _ d hs))

theorem runSeq_reachable (c : List Pos → Pos) (cfg : SnakeConfig) (ds : List String) :
    Reachable c cfg (runSeq c cfg ds) :=
  foldl_step_reachable c cfg ds _ Reachable.reset

/-- The default deterministic model of `random.choice` used for concrete
scenarios: take the first element of the free list. -/
def chooseHead : List Pos → Pos := fun l => l.headD (0, 0)

theorem goodChoose_chooseHead : GoodChoose chooseHead := by
  intro l hl
  cases l with
  | nil => exact absurd rfl hl
  | cons x xs => exact List.mem_cons_self x xs

/-! ## Shape lemmas for `move` and `queue_direction` -/

theorem move_dead (c : List Pos → Pos) (cfg : SnakeConfig) (s : GameState)
    (h : s.alive = false) : move c cfg s = (false, s) := by
  simp [move, h]

theorem move_wrap (c : List Pos → Pos) (cfg : SnakeConfig) (s : GameState)
    (halive : s.alive = true) (hw : cfg.wrap_walls = true) :
    move c cfg s =
      moveCore c cfg { s with direction := s.pending_direction } (effectiveHead cfg s) := by
  simp [move, effectiveHead, halive, hw]

theorem move_inb (c : List Pos → Pos) (cfg : SnakeConfig) (s : GameState)
    (halive : s.alive = true) (hw : cfg.wrap_walls = false)
    (hin : in_bounds cfg (next_head { s with direction := s.pending_direction }).1
      (next_head { s with direction := s.pending_direction }).2) :
    move c cfg s =
      moveCore c cfg { s with direction := s.pending_direction } (effectiveHead cfg s) := by
  simp only [move]
  rw [if_neg (show ¬ s.alive = false by simp [halive])]
  rw [if_neg (show ¬ cfg.wrap_walls = true by simp [hw])]
  rw [if_pos hin]
  simp [effectiveHead, hw]

theorem move_wall (c : List Pos → Pos) (cfg : SnakeConfig) (s : GameState)
    (halive : s.alive = true) (hw : cfg.wrap_walls = false)
    (hout : ¬ in_bounds cfg (next_head { s with direction := s.pending_direction }).1
      (next_head { s with direction := s.pending_direction }).2) :
    move c cfg s = (false, { s with direction := s.pending_direction, alive := false }) := by
  simp only [move]
  rw [if_neg (show ¬ s.alive = false by simp [halive])]
  rw [if_neg (show ¬ cfg.wrap_walls = true by simp [hw])]
  rw [if_neg hout]

theorem moveCore_fatal (c : List Pos → Pos) (cfg : SnakeConfig) (s : GameState) (nh : Pos)
    (h : nh ∈ s.snake_set ∧ ¬(¬(nh ∈ s.apples) ∧ nh = s.snake.getLastD (0, 0))) :
    moveCore c cfg s nh = (false, { s with alive := false }) := by
  simp only [moveCore, if_pos h]

theorem moveCore_growing (c : List Pos → Pos) (cfg : SnakeConfig) (s : GameState) (nh : Pos)
    (hno : ¬(nh ∈ s.snake_set ∧ ¬(¬(nh ∈ s.apples) ∧ nh = s.snake.getLastD (0, 0))))
    (hg : nh ∈ s.apples) :
    moveCore c cfg s nh =
      (true, replenish_apples c cfg
        { s with
          snake := nh :: s.snake
          snake_set := addSet nh s.snake_set
          free_tiles := s.free_tiles.erase nh
          apples := s.apples.erase nh
          score := s.score + 1 }) := by
  simp only [moveCore, if_neg hno, if_pos hg]

theorem moveCore_nongrow (c : List Pos → Pos) (cfg : SnakeConfig) (s : GameState) (nh : Pos)
    (hno : ¬(nh ∈ s.snake_set ∧ ¬(¬(nh ∈ s.apples) ∧ nh = s.snake.getLastD (0, 0))))
    (hg : nh ∉ s.apples) :
    moveCore c cfg s nh =
      (true, replenish_apples c cfg
        { s with
          snake := (nh :: s.snake).dropLast
          snake_set := (addSet nh s.snake_set).erase ((nh :: s.snake).getLastD (0, 0))
          free_tiles := addSet ((nh :: s.snake).getLastD (0, 0)) (s.free_tiles.erase nh) }) := by
  simp only [moveCore, if_neg hno, if_neg hg]

theorem queue_direction_preserves (d : String) (s : GameState) :
    (queue_direction d s).snake = s.snake ∧
    (queue_direction d s).snake_set = s.snake_set ∧
    (queue_direction d s).apples = s.apples ∧
    (queue_direction d s).free_tiles = s.free_tiles ∧
    (queue_direction d s).direction = s.direction ∧
    (queue_direction d s).running = s.running ∧
    (queue_direction d s).alive = s.alive ∧
    (queue_direction d s).score = s.score := by
  unfold queue_direction
  split
  · exact ⟨rfl, rfl, rfl, rfl, rfl, rfl, rfl, rfl⟩
  · split
    · exact ⟨rfl, rfl, rfl, rfl, rfl, rfl, rfl, rfl⟩
    · exact ⟨rfl, rfl, rfl, rfl, rfl, rfl, rfl, rfl⟩

/-- Each `move()` call either keeps snake length and score (failed move,
non-growing move) or increments both by one (growing move). -/
theorem moveCore_length_score (c : List Pos → Pos) (cfg : SnakeConfig) (s : GameState)
    (nh : Pos) :
    ((moveCore c cfg s nh).2.snake.length = s.snake.length ∧
      (moveCore c cfg s nh).2.score = s.score) ∨
    ((moveCore c cfg s nh).2.snake.length = s.snake.length + 1 ∧
      (moveCore c cfg s nh).2.score = s.score + 1) := by
  by_cases hcol : nh ∈ s.snake_set ∧ ¬(¬(nh ∈ s.apples) ∧ nh = s.snake.getLastD (0, 0))
  · rw [moveCore_fatal c cfg s nh hcol]
    exact Or.inl ⟨rfl, rfl⟩
  · by_cases hg : nh ∈ s.apples
    · rw [moveCore_growing c cfg s nh hcol hg]
      exact Or.inr ⟨by simp [replenish_snake], by simp [replenish_score]⟩
    · rw [moveCore_nongrow c cfg s nh hcol hg]
      refine Or.inl ⟨?_, by simp [replenish_score]⟩
      rw [replenish_snake]
      simp

theorem move_length_score (c : List Pos → Pos) (cfg : SnakeConfig) (s : GameState) :
    ((move c cfg s).2.snake.length = s.snake.length ∧
      (move c cfg s).2.score = s.score) ∨
    ((move c cfg s).2.snake.length = s.snake.length + 1 ∧
      (move c cfg s).2.score = s.score + 1) := by
  by_cases halive : s.alive = false
  · rw [move_dead c cfg s halive]
    exact Or.inl ⟨rfl, rfl⟩
  · have halive' : s.alive = true := by
      cases h : s.alive
      · exact absurd h halive
      · rfl
    by_cases hw : cfg.wrap_walls = true
    · rw [move_wrap c cfg s halive' hw]
      exact moveCore_length_score c cfg _ _
    · have hw' : cfg.wrap_walls = false := by
        cases h : cfg.wrap_walls
        · rfl
        · exact absurd h hw
      by_cases hin : in_bounds cfg (next_head { s with direction := s.pending_direction }).1
        (next_head { s with direction := s.pending_direction }).2
      · rw [move_inb c cfg s halive' hw' hin]
        exact moveCore_length_score c cfg _ _
      · rw [move_wall c cfg s halive' hw' hin]
        exact Or.inl ⟨rfl, rfl⟩

/-! ## Bounds for the spawned snake -/

theorem foldl_min_le_init (xs : List Int) : ∀ x : Int, xs.foldl min x ≤ x := by
  induction xs with
  | nil => intro x; exact le_refl x
  | cons y ys ih =>
    intro x
    rw [List.foldl_cons]
    exact le_trans (ih (min x y)) (min_le_left x y)

theorem foldl_min_le_mem (xs : List Int) : ∀ (x a : Int), a ∈ xs → xs.foldl min x ≤ a := by
  induction xs with
  | nil => intro x a ha; exact absurd ha (List.not_mem_nil a)
  | cons y ys ih =>
    intro x a ha
    rw [List.foldl_cons]
    rcases List.mem_cons.mp ha with rfl | ha
    · exact le_trans (foldl_min_le_init ys (min x a)) (min_le_right x a)
    · exact ih (min x y) a ha

theorem init_le_foldl_max (xs : List Int) : ∀ x : Int, x ≤ xs.foldl max x := by
  induction xs with
  | nil => intro x; exact le_refl x
  | cons y ys ih =>
    intro x
    rw [List.foldl_cons]
    exact le_trans (le_max_left x y) (ih (max x y))

theorem mem_le_foldl_max (xs : List Int) : ∀ (x a : Int), a ∈ xs → a ≤ xs.foldl max x := by
  induction xs with
  | nil => intro x a ha; exact absurd ha (List.not_mem_nil a)
  | cons y ys ih =>
    intro x a ha
    rw [List.foldl_cons]
    rcases List.mem_cons.mp ha with rfl | ha
    · exact le_trans (le_max_right x a) (init_le_foldl_max ys (max x a))
    · exact ih (max x y) a ha

theorem min?_getD_le {l : List Int} {a : Int} (ha : a ∈ l) : l.min?.getD 0 ≤ a := by
  cases l with
  | nil => exact absurd ha (List.not_mem_nil a)
  | cons x xs =>
    show xs.foldl min x ≤ a
    rcases List.mem_cons.mp ha with rfl | ha
    · exact foldl_min_le_init xs a
    · exact foldl_min_le_mem xs x a ha

theorem le_max?_getD {l : List Int} {a : Int} (ha : a ∈ l) : a ≤ l.max?.getD 0 := by
  cases l with
  | nil => exact absurd ha (List.not_mem_nil a)
  | cons x xs =>
    show a ≤ xs.foldl max x
    rcases List.mem_cons.mp ha with rfl | ha
    · exact init_le_foldl_max xs a
    · exact mem_le_foldl_max xs x a ha

/-- When the configured initial length fits in the grid, every cell produced
by the spawn-position computation is inside the grid. -/
theorem spawnPositions_in_bounds (size len : Nat) (hle : len ≤ size) :
    ∀ p ∈ spawnPositions size len,
      0 ≤ p.1 ∧ p.1 < (size : Int) ∧ 0 ≤ p.2 ∧ p.2 < (size : Int) := by
  intro p hp
  simp only [spawnPositions] at hp
  have hcy0 : (0 : Int) ≤ ((size / 2 : Nat) : Int) := Int.natCast_nonneg _
  split at hp
  · -- fallback placement, anchored to fit exactly
    obtain ⟨i, hi, rfl⟩ := List.mem_map.mp hp
    have hi' : i < len := List.mem_range.mp hi
    have h0 : (0 : Int) ≤ (size : Int) - (len : Int) := by omega
    have htx0 : 0 ≤ Int.fdiv ((size : Int) - (len : Int)) 2 := by
      rw [Int.fdiv_eq_ediv _ (by norm_num)]
      exact Int.ediv_nonneg h0 (by norm_num)
    have htxle : Int.fdiv ((size : Int) - (len : Int)) 2 ≤ (size : Int) - (len : Int) := by
      rw [Int.fdiv_eq_ediv _ (by norm_num)]
      exact Int.ediv_le_self _ h0
    have hlen1 : 1 ≤ len := by omega
    have hsz1 : 1 ≤ size := le_trans hlen1 hle
    have hcy : ((size / 2 : Nat) : Int) < (size : Int) := by
      have := Nat.div_lt_self (by omega : 0 < size) (by norm_num : 1 < 2)
      omega
    refine ⟨by omega, by omega, hcy0, hcy⟩
  · -- naive centered placement, known not to leave the grid
    rename_i hcond
    push_neg at hcond
    obtain ⟨i, hi, rfl⟩ := List.mem_map.mp hp
    have hi' : i < len := List.mem_range.mp hi
    have hmem : ((size / 2 : Nat) : Int) - (i : Int) ∈
        (((List.range len).map
          (fun (i : Nat) => (((size / 2 : Nat) : Int) - (i : Int), ((size / 2 : Nat) : Int)))).map
            Prod.fst) := by
      exact List.mem_map.mpr ⟨_, List.mem_map.mpr ⟨i, hi, rfl⟩, rfl⟩
    have hmin := min?_getD_le hmem
    have hmax := le_max?_getD hmem
    have hlen1 : 1 ≤ len := by omega
    have hsz1 : 1 ≤ size := le_trans hlen1 hle
    have hcy : ((size / 2 : Nat) : Int) < (size : Int) := by
      have := Nat.div_lt_self (by omega : 0 < size) (by norm_num : 1 < 2)
      omega
    exact ⟨by omega, by omega, hcy0, hcy⟩

/-! ## Concrete configurations and states used in scenarios -/

/-- The default configuration of the dataclass (20×20 grid, 3 apples,
initial length 3, no wrapping). -/
def cfgDefault : SnakeConfig := {}

def cfg20 : SnakeConfig := { grid_size := 20, initial_length := 3 }

def cfg3 : SnakeConfig := { grid_size := 3, initial_length := 3, apples := 1 }

/-- A small hand-built state on a 3×3 grid: snake of length 2 heading right,
one apple, used to exercise `queue_direction` and `move`. -/
def stQueue : GameState :=
  { snake := [(1, 1), (0, 1)]
    snake_set := [(1, 1), (0, 1)]
    apples := [(0, 0)]
    free_tiles := [(1, 0), (2, 0), (0, 2), (1, 2), (2, 2), (2, 1)]
    direction := "right"
    pending_direction := "right"
    running := false
    alive := true
    score := 0 }

/-! ## Claim C10 -/

/-- **C10**: in every state reachable from `reset()` by `move()` and
`queueDirection()` calls, the snake's length equals
`initial_length + score`; consequently, whenever the configured initial
length is at least 2 (the engine's documented minimum), the snake's length
always exceeds 1, so the length-1 escape hatch in the `queue_direction`
reversal rule can never fire. -/
theorem c10_length_equals_initial_plus_score (c : List Pos → Pos) (cfg : SnakeConfig)
    (s : GameState) (h : Reachable c cfg s) :
    s.snake.length = cfg.initial_length + s.score ∧
    (2 ≤ cfg.initial_length → 1 < s.snake.length) := by
  have main : s.snake.length = cfg.initial_length + s.score := by
    induction h with
    | reset => rw [resetState_snake, resetState_score, spawnPositions_length]; omega
    | step_move s' hs ih =>
      rcases move_length_score c cfg s' with ⟨h1, h2⟩ | ⟨h1, h2⟩ <;> rw [h1, h2] <;> omega
    | step_queue s' d hs ih =>
      have hp := queue_direction_preserves d s'
      rw [hp.1, hp.2.2.2.2.2.2.2]
      exact ih
  exact ⟨main, fun h2 => by omega⟩

theorem c10_witness :
    (resetState chooseHead cfgDefault).snake.length
        = cfgDefault.initial_length + (resetState chooseHead cfgDefault).score ∧
    (2 ≤ cfgDefault.initial_length → 1 < (resetState chooseHead cfgDefault).snake.length) :=
  c10_length_equals_initial_plus_score chooseHead cfgDefault _ Reachable.reset

/-! ## Claim C6 -/

/-- **C6**: `queue_direction(d)` is a no-op when `d` is not one of the four
directions; a no-op when `d` is the exact opposite of the current direction
and the snake is longer than 1; otherwise it sets `pending = d` (in
particular a length-1 snake may queue the exact opposite).  In every case
the current direction and all other fields are untouched. -/
theorem c6_queue_direction_rules (d : String) (s : GameState) :
    (¬ validDir d → queue_direction d s = s) ∧
    (validDir d → 1 < s.snake.length → opposites d = s.direction →
      queue_direction d s = s) ∧
    (validDir d → ¬(1 < s.snake.length ∧ opposites d = s.direction) →
      queue_direction d s = { s with pending_direction := d }) ∧
    (validDir d → s.snake.length = 1 →
      queue_direction d s = { s with pending_direction := d }) ∧
    ((queue_direction d s).direction = s.direction ∧
      (queue_direction d s).snake = s.snake ∧
      (queue_direction d s).snake_set = s.snake_set ∧
      (queue_direction d s).apples = s.apples ∧
      (queue_direction d s).free_tiles = s.free_tiles ∧
      (queue_direction d s).running = s.running ∧
      (queue_direction d s).alive = s.alive ∧
      (queue_direction d s).score = s.score) := by
  refine ⟨?_, ?_, ?_, ?_, ?_⟩
  · intro h
    unfold queue_direction
    rw [if_pos h]
  · intro hv hl ho
    unfold queue_direction
    rw [if_neg (not_not_intro hv), if_pos ⟨hl, ho⟩]
  · intro hv hno
    unfold queue_direction
    rw [if_neg (not_not_intro hv), if_neg hno]
  · intro hv h1
    unfold queue_direction
    rw [if_neg (not_not_intro hv), if_neg (by omega : ¬(1 < s.snake.length ∧ opposites d = s.direction))]
  · obtain ⟨h1, h2, h3, h4, h5, h6, h7, h8⟩ := queue_direction_preserves d s
    exact ⟨h5, h1, h2, h3, h4, h6, h7, h8⟩

theorem c6_witness :
    ¬ validDir "w" ∧ queue_direction "w" stQueue = stQueue ∧
    validDir "left" ∧ 1 < stQueue.snake.length ∧ opposites "left" = stQueue.direction ∧
    queue_direction "left" stQueue = stQueue ∧
    validDir "down" ∧
    queue_direction "down" stQueue = { stQueue with pending_direction := "down" } :=
  ⟨by decide, (c6_queue_direction_rules "w" stQueue).1 (by decide),
   by decide, by decide, by decide,
   (c6_queue_direction_rules "left" stQueue).2.1 (by decide) (by decide) (by decide),
   by decide,
   (c6_queue_direction_rules "down" stQueue).2.2.1 (by decide) (by decide)⟩

/-! ## Claim C7 -/

/-- **C7**: after `reset()` the snake is a horizontal line with the head
rightmost and both direction fields `"right"`: with `grid_size = 20` and
`initial_length = 3` the snake is exactly `[(10,10), (9,10), (8,10)]`
(head first); with `grid_size = 3` and `initial_length = 3` the naive
centered placement would leave the grid and the fallback places the snake
at `x ∈ {0,1,2}`, `y = 1`, head at `x = 2`, i.e. `[(2,1), (1,1), (0,1)]`.
For every configuration with `initial_length ≤ grid_size`, all spawned
snake cells lie inside the grid. -/
theorem c7_spawn_layout :
    (∀ c : List Pos → Pos,
      (resetState c cfg20).snake = [(10, 10), (9, 10), (8, 10)] ∧
      (resetState c cfg20).direction = "right" ∧
      (resetState c cfg20).pending_direction = "right") ∧
    (∀ c : List Pos → Pos,
      (resetState c cfg3).snake = [(2, 1), (1, 1), (0, 1)] ∧
      (resetState c cfg3).direction = "right" ∧
      (resetState c cfg3).pending_direction = "right") ∧
    (∀ cfg : SnakeConfig, cfg.initial_length ≤ cfg.grid_size →
      ∀ c : List Pos → Pos, ∀ p ∈ (resetState c cfg).snake, in_bounds cfg p.1 p.2) := by
  refine ⟨?_, ?_, ?_⟩
  · intro c
    refine ⟨?_, resetState_direction c cfg20, resetState_pending c cfg20⟩
    rw [resetState_snake]
    decide
  · intro c
    refine ⟨?_, resetState_direction c cfg3, resetState_pending c cfg3⟩
    rw [resetState_snake]
    decide
  · intro cfg hle c p hp
    rw [resetState_snake] at hp
    exact spawnPositions_in_bounds cfg.grid_size cfg.initial_length hle p hp

theorem c7_witness :
    cfg3.initial_length ≤ cfg3.grid_size ∧
    (∀ p ∈ (resetState chooseHead cfg3).snake, in_bounds cfg3 p.1 p.2) :=
  ⟨by decide, c7_spawn_layout.2.2 cfg3 (by decide) chooseHead⟩

/-! ## Claim C3 -/

/-- **C3**: with `wrap_walls = false`, a candidate head outside `[0, size)`
on either axis makes `move()` set alive to false and return false (the only
state change being the already-committed direction).  With
`wrap_walls = true` the candidate head instead has each coordinate taken
modulo `grid_size`, the wrapped head is inside the grid (for a positive
grid), and the move proceeds past the wall stage: `move` equals the
post-wall collision/commit stage `moveCore` on the wrapped head. -/
theorem c3_wall_rule (c : List Pos → Pos) (cfg : SnakeConfig) (s : GameState)
    (halive : s.alive = true) :
    (cfg.wrap_walls = false →
      ¬ in_bounds cfg (next_head { s with direction := s.pending_direction }).1
        (next_head { s with direction := s.pending_direction }).2 →
      move c cfg s = (false, { s with direction := s.pending_direction, alive := false })) ∧
    (cfg.wrap_walls = true →
      effectiveHead cfg s =
        ((next_head { s with direction := s.pending_direction }).1 % (cfg.grid_size : Int),
          (next_head { s with direction := s.pending_direction }).2 % (cfg.grid_size : Int)) ∧
      (0 < cfg.grid_size →
        in_bounds cfg (effectiveHead cfg s).1 (effectiveHead cfg s).2) ∧
      move c cfg s =
        moveCore c cfg { s with direction := s.pending_direction } (effectiveHead cfg s)) := by
  constructor
  · intro hw hout
    exact move_wall c cfg s halive hw hout
  · intro hw
    have heff : effectiveHead cfg s =
        ((next_head { s with direction := s.pending_direction }).1 % (cfg.grid_size : Int),
          (next_head { s with direction := s.pending_direction }).2 % (cfg.grid_size : Int)) := by
      simp [effectiveHead, hw]
    refine ⟨heff, ?_, move_wrap c cfg s halive hw⟩
    intro hpos
    have hsz : (0 : Int) < (cfg.grid_size : Int) := by exact_mod_cast hpos
    rw [heff]
    exact ⟨Int.emod_nonneg _ (by omega), Int.emod_lt_of_pos _ hsz,
      Int.emod_nonneg _ (by omega), Int.emod_lt_of_pos _ hsz⟩

/-- A 3×3 state whose next move exits the left edge: snake `[(0,1),(1,1)]`
with committed direction `"left"`. -/
def stEdge : GameState :=
  { snake := [(0, 1), (1, 1)]
    snake_set := [(0, 1), (1, 1)]
    apples := [(0, 0)]
    free_tiles := [(1, 0), (2, 0), (2, 1), (0, 2), (1, 2), (2, 2)]
    direction := "left"
    pending_direction := "left"
    running := false
    alive := true
    score := 0 }

/-- `cfg3` with wrapping enabled. -/
def cfg3w : SnakeConfig := { grid_size := 3, initial_length := 3, apples := 1, wrap_walls := true }

theorem c3_witness :
    move chooseHead cfg3 stEdge
        = (false, { stEdge with direction := stEdge.pending_direction, alive := false }) ∧
    effectiveHead cfg3w stEdge = (2, 1) ∧
    in_bounds cfg3w (effectiveHead cfg3w stEdge).1 (effectiveHead cfg3w stEdge).2 ∧
    move chooseHead cfg3w stEdge
        = moveCore chooseHead cfg3w { stEdge with direction := stEdge.pending_direction }
            (effectiveHead cfg3w stEdge) :=
  ⟨(c3_wall_rule chooseHead cfg3 stEdge rfl).1 rfl (by decide),
    by decide,
    ((c3_wall_rule chooseHead cfg3w stEdge rfl).2 rfl).2.1 (by decide),
    ((c3_wall_rule chooseHead cfg3w stEdge rfl).2 rfl).2.2⟩

/-! ## Transport lemmas from the loop to `replenish_apples` -/

theorem replenish_mem_union (c : List Pos → Pos) (cfg : SnakeConfig) (s : GameState)
    (p : Pos) (hp : p ∈ s.free_tiles ∨ p ∈ s.apples) :
    p ∈ (replenish_apples c cfg s).free_tiles ∨ p ∈ (replenish_apples c cfg s).apples := by
  unfold replenish_apples
  exact replenishLoop_mem_union c _ _ s.apples s.free_tiles p hp

theorem replenish_free_subset (c : List Pos → Pos) (cfg : SnakeConfig) (s : GameState)
    (p : Pos) (hp : p ∈ (replenish_apples c cfg s).free_tiles) : p ∈ s.free_tiles := by
  unfold replenish_apples at hp
  exact replenishLoop_free_subset c _ _ s.apples s.free_tiles p hp

theorem replenish_apples_from (c : List Pos → Pos) (hgood : GoodChoose c)
    (cfg : SnakeConfig) (s : GameState) (p : Pos)
    (ha : p ∉ s.apples) (hf : p ∉ s.free_tiles) :
    p ∉ (replenish_apples c cfg s).apples := by
  unfold replenish_apples
  exact replenishLoop_apples_from c hgood _ _ s.apples s.free_tiles p ha hf

/-- Common preamble: a successful `move()` call goes through `moveCore` on
the effective head. -/
theorem move_success_shape (c : List Pos → Pos) (cfg : SnakeConfig) (s : GameState)
    (hsucc : (move c cfg s).1 = true) :
    s.alive = true ∧
    move c cfg s =
      moveCore c cfg { s with direction := s.pending_direction } (effectiveHead cfg s) := by
  have halive : s.alive = true := by
    cases h : s.alive
    · rw [move_dead c cfg s h] at hsucc
      simp at hsucc
    · rfl
  refine ⟨halive, ?_⟩
  by_cases hw : cfg.wrap_walls = true
  · exact move_wrap c cfg s halive hw
  · have hw' : cfg.wrap_walls = false := by
      cases h : cfg.wrap_walls
      · rfl
      · exact absurd h hw
    by_cases hin : in_bounds cfg (next_head { s with direction := s.pending_direction }).1
      (next_head { s with direction := s.pending_direction }).2
    · exact move_inb c cfg s halive hw' hin
    · rw [move_wall c cfg s halive hw' hin] at hsucc
      simp at hsucc

/-! ## Claim C4 (amended) -/

/-- **C4** (amended): for every successful non-growing `move()` (candidate
head not on an apple) from a state with a nonempty snake, the snake's length
is unchanged, and the vacated tail cell is freed by the move step — after
the call it is in the free-tile set or, if the post-move apple replenishment
immediately drew it as a new apple, in the apple set.  (The original claim,
that the vacated tail is always in the free-tile set after the call, fails
exactly when replenishment consumes it; see the counterexample.) -/
theorem c4_nongrowing_move (c : List Pos → Pos) (cfg : SnakeConfig) (s : GameState)
    (hne : s.snake ≠ [])
    (hsucc : (move c cfg s).1 = true)
    (hng : effectiveHead cfg s ∉ s.apples) :
    (move c cfg s).2.snake.length = s.snake.length ∧
    (s.snake.getLastD (0, 0) ∈ (move c cfg s).2.free_tiles ∨
      s.snake.getLastD (0, 0) ∈ (move c cfg s).2.apples) := by
  obtain ⟨halive, hmv⟩ := move_success_shape c cfg s hsucc
  by_cases hcol : effectiveHead cfg s ∈ s.snake_set ∧
      ¬(¬(effectiveHead cfg s ∈ s.apples) ∧ effectiveHead cfg s = s.snake.getLastD (0, 0))
  · rw [hmv, moveCore_fatal c cfg { s with direction := s.pending_direction }
      (effectiveHead cfg s) hcol] at hsucc
    simp at hsucc
  · have hng' := moveCore_nongrow c cfg { s with direction := s.pending_direction }
      (effectiveHead cfg s) hcol hng
    have hot : (effectiveHead cfg s :: s.snake).getLastD (0, 0) = s.snake.getLastD (0, 0) := by
      rw [List.getLastD_cons]
      exact getLastD_congr s.snake hne _ _
    rw [hmv, hng']
    constructor
    · rw [replenish_snake]
      simp
    · refine replenish_mem_union c cfg _ _ (Or.inl ?_)
      show s.snake.getLastD (0, 0) ∈
        addSet ((effectiveHead cfg s :: s.snake).getLastD (0, 0))
          (s.free_tiles.erase (effectiveHead cfg s))
      rw [hot]
      exact mem_addSet.mpr (Or.inl rfl)

/-- Configuration for the replenishment-steals-the-tail scenario: 4×4 grid,
one apple, initial length 2. -/
def cfgTrap : SnakeConfig := { grid_size := 4, apples := 1, initial_length := 2 }

/-- Deterministic model of the apple draws in the scenario: the apple is
always placed one cell ahead of the planned path of the snake (the
replenishment calls are distinguished by the size of the free set at the
time of the draw). -/
def chooseTrap : List Pos → Pos := fun l =>
  match l.length with
  | 14 => (2, 3)
  | 13 => (3, 3)
  | 12 => (3, 2)
  | 11 => (3, 1)
  | 10 => (3, 0)
  | 9 => (2, 0)
  | 8 => (2, 1)
  | 7 => (1, 1)
  | 6 => (1, 0)
  | 5 => (0, 0)
  | 4 => (0, 1)
  | 3 => (0, 2)
  | 2 => (0, 3)
  | _ => l.headD (0, 0)

/-- The queued directions of the scenario: the snake eats an apple on every
tick, grows to fill the whole 4×4 grid, and then slides onto its own tail. -/
def dsTrap : List String :=
  ["down", "right", "up", "up", "up", "left", "down", "left", "up", "left",
   "down", "down", "down", "right"]

def preTrap : GameState := runSeq chooseTrap cfgTrap dsTrap

def stTrap : GameState := queue_direction "up" preTrap

/-- **C4, counterexample**: a reachable state in which the next `move()` is
successful and non-growing, yet the vacated tail cell is NOT in the
free-tile set after the call — the post-move apple replenishment
immediately placed an apple on it (the grid is otherwise full). -/
theorem c4_counterexample :
    Reachable chooseTrap cfgTrap stTrap ∧
    (move chooseTrap cfgTrap stTrap).1 = true ∧
    effectiveHead cfgTrap stTrap ∉ stTrap.apples ∧
    stTrap.snake.getLastD (0, 0) ∉ (move chooseTrap cfgTrap stTrap).2.free_tiles :=
  ⟨Reachable.step_queue _ "up" (runSeq_reachable chooseTrap cfgTrap dsTrap),
    by decide, by decide, by decide⟩

theorem c4_witness :
    stQueue.snake ≠ [] ∧
    (move chooseHead cfg3 stQueue).1 = true ∧
    effectiveHead cfg3 stQueue ∉ stQueue.apples ∧
    ((move chooseHead cfg3 stQueue).2.snake.length = stQueue.snake.length ∧
      (stQueue.snake.getLastD (0, 0) ∈ (move chooseHead cfg3 stQueue).2.free_tiles ∨
        stQueue.snake.getLastD (0, 0) ∈ (move chooseHead cfg3 stQueue).2.apples)) :=
  ⟨by decide, by decide, by decide,
    c4_nongrowing_move chooseHead cfg3 stQueue (by decide) (by decide) (by decide)⟩

/-! ## Claim C5 -/

/-- **C5**: for every successful growing `move()` (candidate head on an
apple cell) from a state with well-formed (duplicate-free) sets, the snake's
length and the score increase by exactly 1, the consumed apple cell is no
longer in the apple set after the call (replenishment cannot re-place it:
the head cell is not free), and no cell is added to the free-tile set by the
move (the free set only shrinks: the tail is not removed). -/
theorem c5_growing_move (c : List Pos → Pos) (cfg : SnakeConfig) (s : GameState)
    (hgood : GoodChoose c)
    (hfree : s.free_tiles.Nodup) (happ : s.apples.Nodup)
    (hsucc : (move c cfg s).1 = true)
    (hg : effectiveHead cfg s ∈ s.apples) :
    (move c cfg s).2.snake.length = s.snake.length + 1 ∧
    (move c cfg s).2.score = s.score + 1 ∧
    effectiveHead cfg s ∉ (move c cfg s).2.apples ∧
    (∀ p ∈ (move c cfg s).2.free_tiles, p ∈ s.free_tiles) := by
  obtain ⟨halive, hmv⟩ := move_success_shape c cfg s hsucc
  by_cases hcol : effectiveHead cfg s ∈ s.snake_set ∧
      ¬(¬(effectiveHead cfg s ∈ s.apples) ∧ effectiveHead cfg s = s.snake.getLastD (0, 0))
  · rw [hmv, moveCore_fatal c cfg { s with direction := s.pending_direction }
      (effectiveHead cfg s) hcol] at hsucc
    simp at hsucc
  · have hgr := moveCore_growing c cfg { s with direction := s.pending_direction }
      (effectiveHead cfg s) hcol hg
    rw [hmv, hgr]
    refine ⟨by rw [replenish_snake]; simp, by rw [replenish_score], ?_, ?_⟩
    · refine replenish_apples_from c hgood cfg _ _ ?_ ?_
      · show effectiveHead cfg s ∉ s.apples.erase (effectiveHead cfg s)
        intro hmem
        exact ((happ.mem_erase_iff).mp hmem).1 rfl
      · show effectiveHead cfg s ∉ s.free_tiles.erase (effectiveHead cfg s)
        intro hmem
        exact ((hfree.mem_erase_iff).mp hmem).1 rfl
    · intro p hp
      have := replenish_free_subset c cfg _ p hp
      exact List.mem_of_mem_erase this

/-- A 3×3 state with an apple directly in front of the head. -/
def stApple : GameState :=
  { snake := [(1, 1), (0, 1)]
    snake_set := [(1, 1), (0, 1)]
    apples := [(2, 1)]
    free_tiles := [(0, 0), (1, 0), (2, 0), (0, 2), (1, 2), (2, 2)]
    direction := "right"
    pending_direction := "right"
    running := false
    alive := true
    score := 0 }

theorem c5_witness :
    stApple.free_tiles.Nodup ∧ stApple.apples.Nodup ∧
    (move chooseHead cfg3 stApple).1 = true ∧
    effectiveHead cfg3 stApple ∈ stApple.apples ∧
    ((move chooseHead cfg3 stApple).2.snake.length = stApple.snake.length + 1 ∧
      (move chooseHead cfg3 stApple).2.score = stApple.score + 1 ∧
      effectiveHead cfg3 stApple ∉ (move chooseHead cfg3 stApple).2.apples ∧
      (∀ p ∈ (move chooseHead cfg3 stApple).2.free_tiles, p ∈ stApple.free_tiles)) :=
  ⟨by decide, by decide, by decide, by decide,
    c5_growing_move chooseHead cfg3 stApple goodChoose_chooseHead
      (by decide) (by decide) (by decide) (by decide)⟩

/-! ## Claim C8 -/

theorem replenish_disjoint (c : List Pos → Pos) (cfg : SnakeConfig) (s : GameState)
    (hnf : s.free_tiles.Nodup) (hdisj : ∀ p ∈ s.apples, p ∉ s.free_tiles) :
    ∀ p ∈ (replenish_apples c cfg s).apples, p ∉ (replenish_apples c cfg s).free_tiles := by
  unfold replenish_apples
  exact replenishLoop_disjoint c _ _ s.apples s.free_tiles hnf hdisj

/-- Scenario config: 4×4 grid, 5 apples configured, initial length 3. -/
def cfg45 : SnakeConfig := { grid_size := 4, initial_length := 3, apples := 5 }

/-- Scenario config: 3 apples configured on a 4×4 grid. -/
def cfgOneFree : SnakeConfig := { grid_size := 4, initial_length := 2, apples := 3 }

/-- A 4×4 state in which the snake fills 15 of the 16 cells and exactly one
tile, `(3,3)`, is free. -/
def stOneFree : GameState :=
  { snake := [(0, 0), (1, 0), (2, 0), (3, 0), (3, 1), (2, 1), (1, 1), (0, 1),
      (0, 2), (1, 2), (2, 2), (3, 2), (2, 3), (1, 3), (0, 3)]
    snake_set := [(0, 0), (1, 0), (2, 0), (3, 0), (3, 1), (2, 1), (1, 1), (0, 1),
      (0, 2), (1, 2), (2, 2), (3, 2), (2, 3), (1, 3), (0, 3)]
    apples := []
    free_tiles := [(3, 3)]
    direction := "right"
    pending_direction := "right"
    running := false
    alive := true
    score := 13 }

/-- **C8**: `replenishApples()` brings the apple count up to
`target = min(configured apples, |free tiles|)` (whenever the current count
does not already exceed the target), drawing each new apple from the
free-tile set and removing it from that set, and stops without error when
free tiles are exhausted.  Scenario 1: after `reset()` with apples=5,
grid_size=4, initial_length=3, exactly 5 apples are present, disjoint from
the snake.  Scenario 2: with a single free tile and 3 configured apples, at
most 1 apple is placed. -/
theorem c8_replenish_to_target :
    (∀ (c : List Pos → Pos) (cfg : SnakeConfig) (s : GameState),
      GoodChoose c → s.apples.Nodup → s.free_tiles.Nodup →
      (∀ p ∈ s.apples, p ∉ s.free_tiles) →
      s.apples.length ≤ min cfg.apples s.free_tiles.length →
      (replenish_apples c cfg s).apples.length = min cfg.apples s.free_tiles.length ∧
      (∀ p ∈ (replenish_apples c cfg s).apples,
        p ∈ s.apples ∨ (p ∈ s.free_tiles ∧ p ∉ (replenish_apples c cfg s).free_tiles)) ∧
      (∀ p ∈ (replenish_apples c cfg s).free_tiles, p ∈ s.free_tiles)) ∧
    ((resetState chooseHead cfg45).apples.length = 5 ∧
      (∀ p ∈ (resetState chooseHead cfg45).apples,
        p ∉ (resetState chooseHead cfg45).snake_set)) ∧
    (replenish_apples chooseHead cfgOneFree stOneFree).apples.length = 1 := by
  refine ⟨?_, ⟨by decide, by decide⟩, by decide⟩
  intro c cfg s hgood happ hfree hdisj hle
  have hlen : (replenish_apples c cfg s).apples.length
      = min cfg.apples s.free_tiles.length := by
    unfold replenish_apples
    rw [replenishLoop_length c hgood (min cfg.apples s.free_tiles.length)
      s.free_tiles.length s.apples s.free_tiles rfl happ hfree hdisj]
    omega
  refine ⟨hlen, ?_, fun p hp => replenish_free_subset c cfg s p hp⟩
  intro p hp
  by_cases hp1 : p ∈ s.apples
  · exact Or.inl hp1
  · by_cases hp2 : p ∈ s.free_tiles
    · exact Or.inr ⟨hp2, replenish_disjoint c cfg s hfree hdisj p hp⟩
    · exact absurd hp (replenish_apples_from c hgood cfg s p hp1 hp2)

theorem c8_witness :
    GoodChoose chooseHead ∧ stQueue.apples.Nodup ∧ stQueue.free_tiles.Nodup ∧
    (∀ p ∈ stQueue.apples, p ∉ stQueue.free_tiles) ∧
    stQueue.apples.length ≤ min cfg3.apples stQueue.free_tiles.length ∧
    ((replenish_apples chooseHead cfg3 stQueue).apples.length
        = min cfg3.apples stQueue.free_tiles.length ∧
      (∀ p ∈ (replenish_apples chooseHead cfg3 stQueue).apples,
        p ∈ stQueue.apples ∨ (p ∈ stQueue.free_tiles ∧
          p ∉ (replenish_apples chooseHead cfg3 stQueue).free_tiles)) ∧
      (∀ p ∈ (replenish_apples chooseHead cfg3 stQueue).free_tiles,
        p ∈ stQueue.free_tiles)) :=
  ⟨goodChoose_chooseHead, by decide, by decide, by decide, by decide,
    c8_replenish_to_target.1 chooseHead cfg3 stQueue goodChoose_chooseHead
      (by decide) (by decide) (by decide) (by decide)⟩

/-! ## Claims C1 and C9: the tail-slide bookkeeping bug -/

/-- Configuration for the tail-chase scenarios: 8×8 grid, one apple,
initial length 6 (a valid configuration: 2 ≤ 6 ≤ 8, 1 ≤ apples). -/
def cfgCycle : SnakeConfig := { grid_size := 8, apples := 1, initial_length := 6 }

/-- Queued directions that curl the spawned snake into a 2×3 rectangle and
then make it chase its own tail.  Each tail-slide move executes
`snake_set.add(new_head)` (a no-op, the cell is the old tail) followed by
`snake_set.discard(old_tail)` with `old_tail == new_head`, so `snake_set`
loses the snake's own head cell and `free_tiles` gains it: the occupancy
set drifts away from the deque.  The ninth move steps onto a snake cell
that `snake_set` no longer contains, so no collision is detected and the
cell appears twice in the deque. -/
def dsTailChase : List String :=
  ["down", "left", "left", "up", "right", "right", "down", "left", "up"]

/-- The state after `reset()` and the nine moves of `dsTailChase` under the
head-of-the-free-list model of `random.choice` (the single apple lands on
`(0,0)`, far from the action). -/
def stDup : GameState := runSeq chooseHead cfgCycle dsTailChase

/-- **C9, failing run**: `stDup` is reachable from `reset()` by `move()` and
`queue_direction()` calls, all nine of its moves succeeded, and yet the
snake deque contains the cell `(5,4)` twice — the positions in the snake's
ordered cell sequence are NOT pairwise distinct. -/
theorem c9_snake_duplicate_cell :
    Reachable chooseHead cfgCycle stDup ∧
    ¬ stDup.snake.Nodup ∧
    stDup.snake = [(5, 4), (5, 5), (6, 5), (6, 4), (5, 4), (4, 4)] :=
  ⟨runSeq_reachable chooseHead cfgCycle dsTailChase, by decide, by decide⟩

/-- The choice function for the C1 run: the apple drawn at `reset()` (58
free tiles at that point) is `(6,6)`; the apple drawn after it is eaten
(61 free tiles at that point, the tail slides having leaked snake cells
into the free set) is `(4,4)` — a free tile that is still under the snake.
All other draws take the head of the free list. -/
def chooseOverlap : List Pos → Pos := fun l =>
  if l.length = 58 then (6, 6)
  else if l.length = 61 then (4, 4)
  else l.headD (0, 0)

/-- Directions for the C1 run: curl into the rectangle, tail-slide four
times (leaking `(4,4)`, `(5,4)`, `(6,4)`, `(6,5)` into the free set), eat
the apple at `(6,6)` so that replenishment places a new apple on the leaked
cell `(4,4)`, then walk away so that `(4,4)` is popped as an old tail and
added to `free_tiles` while it is an apple. -/
def dsOverlap : List String :=
  ["down", "left", "left", "up", "right", "right", "down", "down", "down", "left", "left"]

def stOverlap : GameState := runSeq chooseOverlap cfgCycle dsOverlap

/-- **C1, failing run**: `stOverlap` is reachable from `reset()`, and the
cell `(4,4)` is simultaneously in the apple set and in the free-tile set —
`Apples ∩ FreeTiles ≠ ∅`, so the three sets are not pairwise disjoint. -/
theorem c1_apples_free_overlap :
    Reachable chooseOverlap cfgCycle stOverlap ∧
    (4, 4) ∈ stOverlap.apples ∧
    (4, 4) ∈ stOverlap.free_tiles :=
  ⟨runSeq_reachable chooseOverlap cfgCycle dsOverlap, by decide, by decide⟩

/-! ## Claim C2: the self-collision rule, defeated by the same slip -/

/-- The first eight queued directions of `dsTailChase`: curl the snake into
the 2×3 rectangle and tail-slide five times, draining five of its six cells
out of `snake_set`. -/
def dsTailChase8 : List String :=
  ["down", "left", "left", "up", "right", "right", "down", "left"]

def preMissed : GameState := runSeq chooseHead cfgCycle dsTailChase8

/-- `preMissed` with the ninth direction, `"up"`, queued: the next candidate
head is `(5,4)`, a cell of the current snake body (the deque is
`[(5,5),(6,5),(6,4),(5,4),(4,4),(4,5)]`), not the tail, and not on an
apple. -/
def stMissed : GameState := queue_direction "up" preMissed

/-- **C2, failing run**: the claim says a candidate head coinciding with a
cell of the current snake body is fatal unless that cell is exactly the
tail of a non-growing move.  On this reachable state the candidate head
`(5,4)` lies on the snake body, is not the tail `(4,5)`, and is not on an
apple — yet `move()` returns true and the snake stays alive, because the
collision check reads the `snake_set` bookkeeping set, which the tail-slide
slip (see C1/C9) has already drained of that cell. -/
theorem c2_collision_missed :
    Reachable chooseHead cfgCycle stMissed ∧
    effectiveHead cfgCycle stMissed ∈ stMissed.snake ∧
    effectiveHead cfgCycle stMissed ≠ stMissed.snake.getLastD (0, 0) ∧
    effectiveHead cfgCycle stMissed ∉ stMissed.apples ∧
    effectiveHead cfgCycle stMissed ∉ stMissed.snake_set ∧
    (move chooseHead cfgCycle stMissed).1 = true ∧
    (move chooseHead cfgCycle stMissed).2.alive = true :=
  ⟨Reachable.step_queue _ "up" (runSeq_reachable chooseHead cfgCycle dsTailChase8),
    by decide, by decide, by decide, by decide, by decide, by decide⟩
